import Mathlib

/-!
Shallow embedding of selfdrive/controls/lib/events.py (alert resolution and
event-state engine): the Events state machine, the Alert record, the EVENTS
catalog access discipline, and the wire adapter, with theorems settling the
spec's claims about them.

Python dicts are modelled as insertion-ordered association lists (lookup takes
the first matching key; the real dicts have unique keys).  Python floats are
modelled as exact rationals, machine ints as Int/Nat, and in-place object
mutation of catalog entries as explicit catalog threading.
-/

namespace ArabicEvents

/-- Event identifiers: raw integer values of the CarEvent.EventName capnp enum. -/
abbrev EventId := Nat

/-- Event-type (category) keys: the string constants of class ET
('enable', 'preEnable', 'noEntry', 'warning', ...). -/
abbrev EType := String

/-- Priority IntEnum from the source (lines 23-29): LOWEST=0 .. HIGHEST=5. -/
inductive Priority where
  | LOWEST
  | LOWER
  | LOW
  | MID
  | HIGH
  | HIGHEST
deriving DecidableEq

/-- Numeric value of the Priority IntEnum members (lines 24-29). -/
def Priority.val : Priority → Nat
  | .LOWEST => 0
  | .LOWER => 1
  | .LOW => 2
  | .MID => 3
  | .HIGH => 4
  | .HIGHEST => 5

/-- Modelled from the spec: the control-cycle period DT_CTRL is imported from
common.realtime, which is outside this file; spec section 8 fixes
cycle_period = 0.01 s, so DT_CTRL = 1/100 as an exact rational. -/
def DT_CTRL : ℚ := 1 / 100

/-- Python int() applied to a rational: truncation toward zero. -/
def pyInt (q : ℚ) : ℤ := if 0 ≤ q then ⌊q⌋ else ⌈q⌉

/-- Alert object state after Alert.__init__ (lines 116-143): presentation
fields, the duration converted to a cycle count, alert_rate and creation_delay
as stored, and the mutable resolution stamps alert_type (initially the empty
string) and event_type (initially None). -/
structure Alert where
  alert_text_1 : String
  alert_text_2 : String
  alert_status : Nat
  alert_size : Nat
  priority : Priority
  visual_alert : Nat
  audible_alert : Nat
  duration : ℤ
  alert_rate : ℚ
  creation_delay : ℚ
  alert_type : String
  event_type : Option EType
deriving DecidableEq

/-- Alert.__init__ (lines 117-143): stores duration as int(duration / DT_CTRL)
cycles (line 137), stores creation_delay unconverted (line 140), and
initializes the resolution stamps to "" and None (lines 142-143). -/
def Alert.mkAlert (alert_text_1 alert_text_2 : String) (alert_status alert_size : Nat)
    (priority : Priority) (visual_alert audible_alert : Nat)
    (duration : ℚ) (alert_rate : ℚ) (creation_delay : ℚ) : Alert :=
  { alert_text_1 := alert_text_1
    alert_text_2 := alert_text_2
    alert_status := alert_status
    alert_size := alert_size
    priority := priority
    visual_alert := visual_alert
    audible_alert := audible_alert
    duration := pyInt (duration / DT_CTRL)
    alert_rate := alert_rate
    creation_delay := creation_delay
    alert_type := ""
    event_type := none }

/-- Alert.__gt__ (lines 148-149): self.priority > alert2.priority, an IntEnum
comparison on the numeric values; no other field is consulted. -/
def Alert.gt (a alert2 : Alert) : Bool :=
  decide (alert2.priority.val < a.priority.val)

/-- Catalog entry: a fixed Alert object, or a callback (AlertCallbackType)
invoked with the callback arguments; V is the type of one callback argument. -/
inductive AlertEntry (V : Type) where
  | fixed : Alert → AlertEntry V
  | callback : (List V → Alert) → AlertEntry V

/-- EVENTS catalog: insertion-ordered mapping event id -> (event type -> entry),
modelled as association lists; the real Python dicts have unique keys. -/
abbrev Catalog (V : Type) := List (EventId × List (EType × AlertEntry V))

variable {V : Type}

/-- Update the value at the first occurrence of key k, leaving keys and the
rest of the list unchanged (the image of a Python dict-entry object mutation
under value semantics). -/
def updFirst {κ α : Type} [BEq κ] (k : κ) (f : α → α) : List (κ × α) → List (κ × α)
  | [] => []
  | p :: l => if p.1 == k then (p.1, f p.2) :: l else p :: updFirst k f l

/-- The two assignments executed on an included alert in create_alerts
(lines 96-97): alert.alert_type = EVENT_NAME[e] + "/" + et and
alert.event_type = et. -/
def Alert.stamp (a : Alert) (eventName : String) (et : EType) : Alert :=
  { a with alert_type := eventName ++ "/" ++ et, event_type := some et }

/-- Effect on the catalog of stamping the fixed Alert object stored at
EVENTS[e][et] in place: the stored object now carries the stamped fields. -/
def Catalog.stampAt (cat : Catalog V) (e : EventId) (et : EType) (a : Alert) : Catalog V :=
  updFirst e (fun d => updFirst et (fun _ => AlertEntry.fixed a) d) cat

/-- Lines 91-93 of create_alerts: take the catalog entry; if it is not an
Alert instance, call it with the callback arguments. -/
def AlertEntry.resolve (entry : AlertEntry V) (callback_args : List V) : Alert :=
  match entry with
  | .fixed a => a
  | .callback f => f callback_args

/-- Catalog as left by the stamping assignments of lines 96-97: when the entry
at EVENTS[e][et] is a fixed Alert object, the assignments mutate that stored
object in place; when it is a callback, they mutate only the freshly
constructed Alert, leaving the catalog untouched. -/
def postCat (cat : Catalog V) (e : EventId) (et : EType) (stamped : Alert) :
    AlertEntry V → Catalog V
  | .fixed _ => cat.stampAt e et stamped
  | .callback _ => cat

/-- State of an Events object: self.events (active list), self.static_events
(persistent list), self.events_prev (streak dict). -/
structure EventsState where
  events : List EventId
  static_events : List EventId
  events_prev : List (EventId × Nat)

/-- Events.__init__ (lines 58-61): empty event lists and
events_prev = dict.fromkeys(EVENTS.keys(), 0). -/
def Events.init (cat : Catalog V) : EventsState :=
  { events := [], static_events := [], events_prev := cat.map (fun p => (p.1, 0)) }

/-- Events.add (lines 70-73): append to events, and to static_events as well
when static is true. -/
def Events.add (s : EventsState) (event_name : EventId) (static : Bool) : EventsState :=
  { s with
    static_events := if static then s.static_events ++ [event_name] else s.static_events
    events := s.events ++ [event_name] }

/-- Events.clear (lines 75-77): recompute every streak over the existing key
universe (old value + 1 when the key was in the active list, else 0), then
reset the active list to a copy of the static list. -/
def Events.clear (s : EventsState) : EventsState :=
  { s with
    events_prev := s.events_prev.map (fun kv => (kv.1, if kv.1 ∈ s.events then kv.2 + 1 else 0))
    events := s.static_events }

/-- Events.any (lines 79-80): event_type in EVENTS.get(e, empty dict) checks
key membership; an event id missing from the catalog contributes nothing. -/
def Events.any (cat : Catalog V) (s : EventsState) (event_type : EType) : Bool :=
  s.events.any (fun e => ((cat.lookup e).getD []).any (fun p => p.1 == event_type))

/-- KeyError raised by a Python dict subscript on a missing key. -/
inductive PyError where
  | keyError : EventId → PyError
deriving DecidableEq

/-- Inner loop of create_alerts (lines 89-98) for one active event e: for each
requested event type present in EVENTS[e], resolve the entry (invoking a
callback if needed), read events_prev[e] (KeyError if absent), apply the
creation-delay gate DT_CTRL * (events_prev[e] + 1) >= alert.creation_delay,
and on inclusion stamp the alert; stamping a fixed entry mutates the stored
object, so the catalog is threaded through. -/
def createAlertsTypes (evName : EventId → String) (prev : List (EventId × Nat))
    (args : List V) (e : EventId) :
    Catalog V → List EType → Except PyError (List Alert × Catalog V)
  | cat, [] => .ok ([], cat)
  | cat, et :: rest =>
    match (cat.lookup e).bind (fun d => d.lookup et) with
    | none => createAlertsTypes evName prev args e cat rest
    | some entry =>
      match prev.lookup e with
      | none => .error (.keyError e)
      | some n =>
        let alert := entry.resolve args
        if DT_CTRL * (n + 1) ≥ alert.creation_delay then
          let stamped := alert.stamp (evName e) et
          let cat' := postCat cat e et stamped entry
          match createAlertsTypes evName prev args e cat' rest with
          | .error err => .error err
          | .ok (r, cat2) => .ok (stamped :: r, cat2)
        else
          createAlertsTypes evName prev args e cat rest

/-- Outer loop of create_alerts (lines 86-99): EVENTS[e] raises KeyError on an
event id absent from the catalog (line 88); otherwise run the inner loop and
concatenate the results in assertion order, threading the catalog. -/
def createAlertsEvents (evName : EventId → String) (prev : List (EventId × Nat))
    (args : List V) (event_types : List EType) :
    Catalog V → List EventId → Except PyError (List Alert × Catalog V)
  | cat, [] => .ok ([], cat)
  | cat, e :: es =>
    match cat.lookup e with
    | none => .error (.keyError e)
    | some _ =>
      match createAlertsTypes evName prev args e cat event_types with
      | .error err => .error err
      | .ok (r1, cat1) =>
        match createAlertsEvents evName prev args event_types cat1 es with
        | .error err => .error err
        | .ok (r2, cat2) => .ok (r1 ++ r2, cat2)

/-- Events.create_alerts (lines 82-99): callback_args defaults to the empty
list when None; returns the included stamped alerts together with the catalog
as left by the in-place stamping of fixed entries (evName models the external
EVENT_NAME enum-name table). -/
def Events.create_alerts (cat : Catalog V) (evName : EventId → String) (s : EventsState)
    (event_types : List EType) (callback_args : Option (List V)) :
    Except PyError (List Alert × Catalog V) :=
  createAlertsEvents evName s.events_prev (callback_args.getD []) event_types cat s.events

/-- Wire message for one event as produced by to_msg: the name field (raw enum
value) and the boolean event-type flags set True. -/
structure CarEvent where
  name : EventId
  setTypes : List EType
deriving DecidableEq

/-- Events.add_from_msg (lines 101-103): append e.name.raw for every decoded
event to the active list. -/
def Events.add_from_msg (s : EventsState) (msgs : List CarEvent) : EventsState :=
  { s with events := s.events ++ msgs.map CarEvent.name }

/-- Events.to_msg (lines 105-113): one message per active event, with the flag
set taken from EVENTS.get(event_name, empty dict) in key order. -/
def Events.to_msg (cat : Catalog V) (s : EventsState) : List CarEvent :=
  s.events.map (fun event_name =>
    { name := event_name, setTypes := ((cat.lookup event_name).getD []).map Prod.fst })

/-- Alert with the mutable resolution stamps blanked to their construction-time
values: the immutable core of the record. -/
def Alert.core (a : Alert) : Alert := { a with alert_type := "", event_type := none }

/-- Entry with the stored alert reduced to its immutable core. -/
def AlertEntry.core (entry : AlertEntry V) : AlertEntry V :=
  match entry with
  | .fixed a => .fixed a.core
  | .callback f => .callback f

/-- Per-event entry dict with every stored alert reduced to its core. -/
def entryListCore (d : List (EType × AlertEntry V)) : List (EType × AlertEntry V) :=
  d.map (fun q => (q.1, q.2.core))

/-- Catalog with every stored alert reduced to its immutable core: the part of
the catalog that create_alerts can never change. -/
def Catalog.core (cat : Catalog V) : Catalog V :=
  cat.map (fun p => (p.1, entryListCore p.2))

/-- Projection used to observe catalog mutation: the alert_type field of the
fixed alert stored at EVENTS[e][et], when there is one. -/
def alertTypeAt (cat : Catalog V) (e : EventId) (et : EType) : Option String :=
  match (cat.lookup e).bind (fun d => d.lookup et) with
  | some (.fixed a) => some a.alert_type
  | _ => none

/-- Agreement of two create_alerts outcomes: same error, or same returned
alert list with core-equal final catalogs. -/
def resultsAgree (x y : Except PyError (List Alert × Catalog V)) : Prop :=
  match x, y with
  | .ok (r1, c1), .ok (r2, c2) => r1 = r2 ∧ Catalog.core c1 = Catalog.core c2
  | .error e1, .error e2 => e1 = e2
  | _, _ => False

/-- Sample fixed alert used by concrete witnesses. -/
def alertA : Alert := Alert.mkAlert "a1" "a2" 0 2 Priority.MID 0 0 2 0 0

/-- Second sample fixed alert of the same priority. -/
def alertB : Alert := Alert.mkAlert "b1" "b2" 1 3 Priority.MID 2 1 3 0 5

/-- Sample fixed alert with a creation delay of 0.03 s. -/
def alertW : Alert := Alert.mkAlert "w1" "" 0 1 Priority.LOW 0 0 2 0 (3 / 100)

/-- Sample one-event catalog used by concrete witnesses. -/
def catW : Catalog Unit := [(7, [("warning", AlertEntry.fixed alertW)])]

/-- Sample EVENT_NAME table used by concrete witnesses. -/
def evNameW : EventId → String := fun _ => "testEvent"

/-! Helper lemmas. -/

lemma lookup_map_keyfun (f : EventId → Nat → Nat) (l : List (EventId × Nat)) (k : EventId) :
    (l.map (fun kv => (kv.1, f kv.1 kv.2))).lookup k = (l.lookup k).map (f k) := by
  induction l with
  | nil => rfl
  | cons p l ih =>
    by_cases h : k = p.1
    · subst h
      simp [List.lookup]
    · have hb : (k == p.1) = false := by simpa using h
      simp [List.lookup, hb, ih]

lemma clear_iter_mem (e : EventId) :
    ∀ (k : Nat) (s : EventsState), e ∈ s.events → e ∈ s.static_events →
      e ∈ (Events.clear^[k] s).events ∧ e ∈ (Events.clear^[k] s).static_events := by
  intro k
  induction k with
  | zero => exact fun s h1 h2 => ⟨h1, h2⟩
  | succ n ih =>
    intro s h1 h2
    rw [Function.iterate_succ_apply]
    exact ih (Events.clear s) h2 h2

/-! Claim theorems. -/

/-- C2: Events.clear preserves the streak dict's fixed key universe (which a
fresh Events draws from the catalog keys), recomputes every identifier's
streak to old + 1 when the identifier was in the active list this cycle and
to 0 otherwise, and resets the active list to the static (persistent) list;
with an empty static list the active list becomes empty. -/
theorem clear_streak_update_spec :
    (∀ s : EventsState, (Events.clear s).events = s.static_events)
    ∧ (∀ s : EventsState, (Events.clear s).static_events = s.static_events)
    ∧ (∀ s : EventsState,
        (Events.clear s).events_prev.map Prod.fst = s.events_prev.map Prod.fst)
    ∧ (∀ (s : EventsState) (k : EventId) (v : Nat),
        s.events_prev.lookup k = some v →
        (Events.clear s).events_prev.lookup k =
          some (if k ∈ s.events then v + 1 else 0))
    ∧ (∀ s : EventsState, s.static_events = [] → (Events.clear s).events = [])
    ∧ (∀ (V : Type) (cat : Catalog V),
        (Events.init cat).events_prev.map Prod.fst = cat.map Prod.fst) := by
  refine ⟨fun s => rfl, fun s => rfl, fun s => ?_, fun s k v h => ?_, fun s h => h, ?_⟩
  · simp [Events.clear]
  · show (s.events_prev.map
        (fun kv => (kv.1, if kv.1 ∈ s.events then kv.2 + 1 else 0))).lookup k = _
    rw [lookup_map_keyfun (fun k v => if k ∈ s.events then v + 1 else 0) s.events_prev k, h]
    rfl
  · intro V cat
    simp [Events.init]

/-- Witness for C2: the streak-update clause of clear_streak_update_spec at a
concrete state, and the empty-static clause. -/
theorem clear_streak_update_spec_witness :
    (Events.clear ⟨[2], [5], [(2, 3), (4, 1)]⟩).events_prev.lookup 2 =
      some (if 2 ∈ [2] then 3 + 1 else 0)
    ∧ (Events.clear ⟨[2], [], [(2, 3)]⟩).events = [] :=
  ⟨clear_streak_update_spec.2.2.2.1 ⟨[2], [5], [(2, 3), (4, 1)]⟩ 2 3 (by decide),
   clear_streak_update_spec.2.2.2.2.1 ⟨[2], [], [(2, 3)]⟩ rfl⟩

/-- C5: the wire round-trip to_msg then add_from_msg, in the same process with
the same catalog, reconstructs the active sequence: decoded into a state whose
active list is empty it yields exactly the original active sequence, and in
general the decoded identifiers are appended verbatim. -/
theorem to_msg_roundtrip {V : Type} (cat : Catalog V) (s s' : EventsState) :
    (Events.add_from_msg { s' with events := [] } (Events.to_msg cat s)).events = s.events
    ∧ (Events.add_from_msg s' (Events.to_msg cat s)).events = s'.events ++ s.events := by
  have hmap : (Events.to_msg cat s).map CarEvent.name = s.events := by
    rw [Events.to_msg, List.map_map]
    exact List.map_id' s.events
  constructor
  · simpa [Events.add_from_msg] using hmap
  · simp [Events.add_from_msg, hmap]

/-- C6 counterexample: add_from_msg does not replace the active list with the
decoded identifiers: ingesting the single event 2 into a state whose active
list is [1] leaves [1, 2], not [2]. -/
theorem add_from_msg_not_replace_cex :
    (Events.add_from_msg ⟨[1], [], []⟩ [⟨2, []⟩]).events ≠ [2] := by decide

/-- C6 amended: add_from_msg appends the decoded event identifiers to the
existing active list (leaving the static list and the streak dict untouched),
so active consists exactly of the decoded identifiers only when the active
list was empty before the call. -/
theorem add_from_msg_appends (s : EventsState) (msgs : List CarEvent) :
    (Events.add_from_msg s msgs).events = s.events ++ msgs.map CarEvent.name
    ∧ (Events.add_from_msg s msgs).static_events = s.static_events
    ∧ (Events.add_from_msg s msgs).events_prev = s.events_prev :=
  ⟨rfl, rfl, rfl⟩

/-- C8: an event identifier added once with static=True is in the active list
in the cycle of the add and after every number of subsequent clear() cycles
with no further add() calls (in particular for the next 5 cycles), because
clear resets the active list to the static list, which retains it. -/
theorem sticky_event_persists (s : EventsState) (e : EventId) (k : Nat) :
    e ∈ (Events.clear^[k] (Events.add s e true)).events :=
  (clear_iter_mem e k (Events.add s e true)
    (by simp [Events.add]) (by simp [Events.add])).1

/-- C10: Alert.gt (the __gt__ operator) holds iff the left alert's priority
value strictly exceeds the right one under LOWEST=0 < LOWER < LOW < MID <
HIGH < HIGHEST=5; only the priority fields influence the comparison, and two
equal-priority alerts are unordered in both directions. -/
theorem alert_gt_priority_only (a b : Alert) :
    (Alert.gt a b = true ↔ b.priority.val < a.priority.val)
    ∧ (a.priority = b.priority → Alert.gt a b = false ∧ Alert.gt b a = false)
    ∧ (∀ a' b' : Alert, a'.priority = a.priority → b'.priority = b.priority →
        Alert.gt a' b' = Alert.gt a b)
    ∧ (Priority.LOWEST.val < Priority.LOWER.val
       ∧ Priority.LOWER.val < Priority.LOW.val
       ∧ Priority.LOW.val < Priority.MID.val
       ∧ Priority.MID.val < Priority.HIGH.val
       ∧ Priority.HIGH.val < Priority.HIGHEST.val) := by
  refine ⟨by simp [Alert.gt], fun h => ?_, fun a' b' h1 h2 => ?_, by decide⟩
  · rw [Alert.gt, Alert.gt, h]
    simp
  · rw [Alert.gt, Alert.gt, h1, h2]

/-- Witness for C10: at two concrete equal-priority alerts the comparison is
false both ways, and the characterization holds. -/
theorem alert_gt_priority_only_witness :
    (Alert.gt alertA alertB = false ∧ Alert.gt alertB alertA = false)
    ∧ (Alert.gt alertA alertB = true ↔ alertB.priority.val < alertA.priority.val) :=
  ⟨(alert_gt_priority_only alertA alertB).2.1 rfl,
   (alert_gt_priority_only alertA alertB).1⟩

/-- C7 counterexample: Alert.__init__ stores creation_delay unconverted (in
seconds), not floored to a cycle count: with creation_delay 300 the stored
value is 300, not floor(300 / DT_CTRL) = 30000. -/
theorem creation_delay_not_converted_cex :
    (Alert.mkAlert "" "" 0 0 Priority.LOWER 0 0 2 0 300).creation_delay ≠
      ((⌊(300 : ℚ) / DT_CTRL⌋ : ℤ) : ℚ) := by
  norm_num [Alert.mkAlert, DT_CTRL]

/-- C7 amended: the duration is stored as int(duration / DT_CTRL), which is
floor(duration / DT_CTRL) for nonnegative durations; the creation delay is
stored unchanged, in seconds, and is not converted to cycles. -/
theorem alert_init_stores (t1 t2 : String) (st sz : Nat) (pr : Priority)
    (va aa : Nat) (t ar d : ℚ) (ht : 0 ≤ t) :
    (Alert.mkAlert t1 t2 st sz pr va aa t ar d).duration = ⌊t / DT_CTRL⌋
    ∧ (Alert.mkAlert t1 t2 st sz pr va aa t ar d).creation_delay = d := by
  refine ⟨?_, rfl⟩
  show pyInt (t / DT_CTRL) = ⌊t / DT_CTRL⌋
  rw [pyInt, if_pos]
  exact div_nonneg ht (by norm_num [DT_CTRL])

/-- Witness for C7's amended theorem at duration 2 and creation delay 300. -/
theorem alert_init_stores_witness :
    (Alert.mkAlert "" "" 0 0 Priority.LOW 0 0 2 0 300).duration = ⌊(2 : ℚ) / DT_CTRL⌋
    ∧ (Alert.mkAlert "" "" 0 0 Priority.LOW 0 0 2 0 300).creation_delay = 300 :=
  alert_init_stores "" "" 0 0 Priority.LOW 0 0 2 0 300 (by norm_num)

/-- C1: for an active event e whose streak counter events_prev[e] is n at
resolution time (so e has been asserted for n + 1 consecutive cycles),
create_alerts includes the resolved, stamped alert of a requested event type
iff DT_CTRL * (n + 1) >= its creation delay, yields no alert otherwise, and
the gate is monotone in the streak: the alert fires starting exactly at the
first cycle where the product reaches the delay and never at any earlier
cycle. -/
theorem creation_delay_gate_spec {V : Type} (cat : Catalog V) (evName : EventId → String)
    (ss : List EventId) (prev : List (EventId × Nat)) (cbArgs : Option (List V))
    (e : EventId) (et : EType) (entry : AlertEntry V) (n : Nat)
    (hd : (cat.lookup e).bind (fun d => d.lookup et) = some entry)
    (hp : prev.lookup e = some n) :
    ((∃ cat', Events.create_alerts cat evName ⟨[e], ss, prev⟩ [et] cbArgs =
        .ok ([(entry.resolve (cbArgs.getD [])).stamp (evName e) et], cat'))
      ↔ DT_CTRL * (n + 1) ≥ (entry.resolve (cbArgs.getD [])).creation_delay)
    ∧ ((∃ cat', Events.create_alerts cat evName ⟨[e], ss, prev⟩ [et] cbArgs =
        .ok ([], cat'))
      ↔ ¬ (DT_CTRL * (n + 1) ≥ (entry.resolve (cbArgs.getD [])).creation_delay))
    ∧ (∀ m : Nat, n ≤ m →
        DT_CTRL * (n + 1) ≥ (entry.resolve (cbArgs.getD [])).creation_delay →
        DT_CTRL * (m + 1) ≥ (entry.resolve (cbArgs.getD [])).creation_delay) := by
  obtain ⟨d, hde, hdet⟩ : ∃ d, cat.lookup e = some d ∧ d.lookup et = some entry := by
    cases hc : cat.lookup e with
    | none => rw [hc] at hd; exact absurd hd (by simp)
    | some d => rw [hc] at hd; exact ⟨d, rfl, by simpa using hd⟩
  obtain ⟨catX, hcomp⟩ : ∃ catX : Catalog V,
      Events.create_alerts cat evName ⟨[e], ss, prev⟩ [et] cbArgs =
      if DT_CTRL * ((n : ℚ) + 1) ≥ (entry.resolve (cbArgs.getD [])).creation_delay
      then .ok ([(entry.resolve (cbArgs.getD [])).stamp (evName e) et], catX)
      else .ok ([], cat) := by
    by_cases hg : DT_CTRL * ((n : ℚ) + 1) ≥ (entry.resolve (cbArgs.getD [])).creation_delay
    · rcases entry with a | f
      · refine ⟨cat.stampAt e et
            (((AlertEntry.fixed a).resolve (cbArgs.getD [])).stamp (evName e) et), ?_⟩
        simp only [Events.create_alerts, createAlertsEvents, createAlertsTypes, hde,
          Option.some_bind, hdet, hp, if_pos hg, List.append_nil, postCat]
      · refine ⟨cat, ?_⟩
        simp only [Events.create_alerts, createAlertsEvents, createAlertsTypes, hde,
          Option.some_bind, hdet, hp, if_pos hg, List.append_nil, postCat]
    · refine ⟨cat, ?_⟩
      simp only [Events.create_alerts, createAlertsEvents, createAlertsTypes, hde,
        Option.some_bind, hdet, hp, if_neg hg, List.append_nil, if_neg]
  constructor
  · constructor
    · rintro ⟨c, hc⟩
      by_contra hg
      rw [hcomp, if_neg hg] at hc
      simp at hc
    · intro hg
      exact ⟨_, by rw [hcomp, if_pos hg]⟩
  constructor
  · constructor
    · rintro ⟨c, hc⟩ hg
      rw [hcomp, if_pos hg] at hc
      simp at hc
    · intro hg
      exact ⟨cat, by rw [hcomp, if_neg hg]⟩
  · intro m hm hg
    refine le_trans hg ?_
    have h1 : (n : ℚ) + 1 ≤ (m : ℚ) + 1 := by
      have := (Nat.cast_le (α := ℚ)).mpr hm
      linarith
    exact mul_le_mul_of_nonneg_left h1 (by norm_num [DT_CTRL])

/-- Witness for C1: at the concrete one-event catalog, with streak 2 and
creation delay 0.03 s, the gate characterization holds (and fires, since
DT_CTRL * 3 = 0.03). -/
theorem creation_delay_gate_spec_witness :
    ((catW.lookup 7).bind (fun d => d.lookup "warning") = some (AlertEntry.fixed alertW))
    ∧ (((∃ cat', Events.create_alerts catW evNameW ⟨[7], [], [(7, 2)]⟩ ["warning"] none =
          .ok ([((AlertEntry.fixed alertW : AlertEntry Unit).resolve []).stamp
                (evNameW 7) "warning"], cat'))
        ↔ DT_CTRL * ((2 : Nat) + 1) ≥
            ((AlertEntry.fixed alertW : AlertEntry Unit).resolve []).creation_delay)) :=
  ⟨rfl, (creation_delay_gate_spec catW evNameW [] [(7, 2)] none 7 "warning"
      (AlertEntry.fixed alertW) 2 rfl rfl).1⟩

/-- C3 counterexample: create_alerts does not yield an empty result for an
active event identifier absent from the catalog; EVENTS[e] raises KeyError
(here on identifier 999, unknown to the one-event catalog). -/
theorem unknown_event_create_alerts_raises_cex :
    Events.create_alerts (V := Unit) catW evNameW ⟨[999], [], []⟩ ["warning"] none =
      .error (.keyError 999) := rfl

/-! Lemmas about lookup, updFirst and the catalog core, used for the
catalog-mutation and idempotence claims. -/

lemma lookup_map_val {κ α β : Type} [BEq κ] (f : α → β) (l : List (κ × α)) (k : κ) :
    (l.map (fun kv => (kv.1, f kv.2))).lookup k = (l.lookup k).map f := by
  induction l with
  | nil => rfl
  | cons p l ih => cases hk : k == p.1 <;> simp [List.lookup, hk, ih]

lemma updFirst_map {κ α β : Type} [BEq κ] (k : κ) (u : α → α) (u' : β → β) (f : α → β)
    (hcomm : ∀ x, f (u x) = u' (f x)) (l : List (κ × α)) :
    (updFirst k u l).map (fun p => (p.1, f p.2)) =
      updFirst k u' (l.map (fun p => (p.1, f p.2))) := by
  induction l with
  | nil => rfl
  | cons p l ih => cases hk : p.1 == k <;> simp [updFirst, hk, ih, hcomm]

lemma updFirst_self {κ α : Type} [BEq κ] [LawfulBEq κ] (k : κ) (u : α → α)
    (l : List (κ × α)) (h : ∀ v, l.lookup k = some v → u v = v) :
    updFirst k u l = l := by
  induction l with
  | nil => rfl
  | cons p l ih =>
    by_cases hk : p.1 = k
    · subst hk
      have hl : List.lookup p.1 (p :: l) = some p.2 := by simp [List.lookup]
      simp [updFirst, h p.2 hl]
    · have hk1 : (p.1 == k) = false := by simpa using hk
      have hk2 : (k == p.1) = false := by simpa using Ne.symm hk
      simp only [updFirst, hk1, Bool.false_eq_true, if_false, List.cons.injEq, true_and]
      exact ih fun v hv => h v (by simpa [List.lookup, hk2] using hv)

lemma core_stamp (a : Alert) (s : String) (t : EType) : (a.stamp s t).core = a.core := rfl

lemma stamp_core (a : Alert) (s : String) (t : EType) : a.core.stamp s t = a.stamp s t := rfl

lemma stamp_congr {a b : Alert} (h : a.core = b.core) (s : String) (t : EType) :
    a.stamp s t = b.stamp s t := by
  rw [← stamp_core a, h, stamp_core]

lemma creation_delay_congr {a b : Alert} (h : a.core = b.core) :
    a.creation_delay = b.creation_delay := by
  have h1 : a.core.creation_delay = b.core.creation_delay := by rw [h]
  exact h1

lemma resolve_core_congr {V : Type} {entry1 entry2 : AlertEntry V}
    (h : entry1.core = entry2.core) (args : List V) :
    (entry1.resolve args).core = (entry2.resolve args).core := by
  cases entry1 with
  | fixed a1 =>
    cases entry2 with
    | fixed a2 => simpa [AlertEntry.core, AlertEntry.resolve] using h
    | callback f2 => simp [AlertEntry.core] at h
  | callback f1 =>
    cases entry2 with
    | fixed a2 => simp [AlertEntry.core] at h
    | callback f2 =>
      simp only [AlertEntry.core, AlertEntry.callback.injEq] at h
      simp [AlertEntry.resolve, h]

lemma lookup_entryListCore {V : Type} (d : List (EType × AlertEntry V)) (et : EType) :
    (entryListCore d).lookup et = (d.lookup et).map AlertEntry.core :=
  lookup_map_val AlertEntry.core d et

lemma lookup_catalog_core {V : Type} (cat : Catalog V) (e : EventId) :
    (Catalog.core cat).lookup e = (cat.lookup e).map entryListCore :=
  lookup_map_val entryListCore cat e

lemma core_stampAt {V : Type} (cat : Catalog V) (e : EventId) (et : EType) (a : Alert) :
    Catalog.core (cat.stampAt e et a) = (Catalog.core cat).stampAt e et a.core :=
  updFirst_map e (fun d => updFirst et (fun _ => AlertEntry.fixed a) d)
    (fun d => updFirst et (fun _ => AlertEntry.fixed a.core) d) entryListCore
    (fun d => updFirst_map et (fun _ => AlertEntry.fixed a)
      (fun _ => AlertEntry.fixed a.core) AlertEntry.core (fun _ => rfl) d) cat

lemma core_stampAt_self {V : Type} (cat : Catalog V) (e : EventId) (et : EType) (a : Alert)
    (hd : (cat.lookup e).bind (fun d => d.lookup et) = some (.fixed a)) (s : String) :
    Catalog.core (cat.stampAt e et (a.stamp s et)) = Catalog.core cat := by
  obtain ⟨d, hde, hdet⟩ : ∃ d, cat.lookup e = some d ∧ d.lookup et = some (.fixed a) := by
    cases hc : cat.lookup e with
    | none => rw [hc] at hd; exact absurd hd (by simp)
    | some d => rw [hc] at hd; exact ⟨d, rfl, by simpa using hd⟩
  rw [core_stampAt, core_stamp]
  apply updFirst_self
  intro v hv
  rw [lookup_catalog_core, hde] at hv
  have hv2 : entryListCore d = v := by simpa using hv
  rw [← hv2]
  apply updFirst_self
  intro w hw
  rw [lookup_entryListCore, hdet] at hw
  have hw2 : AlertEntry.core (AlertEntry.fixed a) = w := by simpa using hw
  exact hw2

lemma core_postCat_self {V : Type} (cat : Catalog V) (e : EventId) (et : EType)
    (entry : AlertEntry V) (args : List V)
    (hd : (cat.lookup e).bind (fun d => d.lookup et) = some entry) (s : String) :
    Catalog.core (postCat cat e et ((entry.resolve args).stamp s et) entry) =
      Catalog.core cat := by
  cases entry with
  | fixed a => exact core_stampAt_self cat e et a hd s
  | callback f => rfl

lemma createAlertsTypes_core (evName : EventId → String) (prev : List (EventId × Nat))
    (args : List V) (e : EventId) :
    ∀ (ets : List EType) (cat : Catalog V) (r : List Alert) (cat' : Catalog V),
      createAlertsTypes evName prev args e cat ets = .ok (r, cat') →
      Catalog.core cat' = Catalog.core cat := by
  intro ets
  induction ets with
  | nil =>
    intro cat r cat' h
    simp only [createAlertsTypes, Except.ok.injEq, Prod.mk.injEq] at h
    rw [← h.2]
  | cons et rest ih =>
    intro cat r cat' h
    simp only [createAlertsTypes] at h
    cases hlk : (cat.lookup e).bind (fun d => d.lookup et) with
    | none =>
      simp only [hlk] at h
      exact ih cat r cat' h
    | some entry =>
      simp only [hlk] at h
      cases hp : prev.lookup e with
      | none =>
        simp only [hp] at h
        exact Except.noConfusion h
      | some n =>
        simp only [hp] at h
        by_cases hg : DT_CTRL * ((n : ℚ) + 1) ≥ (entry.resolve args).creation_delay
        · rw [if_pos hg] at h
          cases hrec : createAlertsTypes evName prev args e
              (postCat cat e et ((entry.resolve args).stamp (evName e) et) entry) rest with
          | error err =>
            simp only [hrec] at h
            exact Except.noConfusion h
          | ok p =>
            obtain ⟨r2, cat2⟩ := p
            simp only [hrec] at h
            have hcat : cat2 = cat' := by
              simp only [Except.ok.injEq, Prod.mk.injEq] at h
              exact h.2
            rw [← hcat, ih _ r2 cat2 hrec]
            exact core_postCat_self cat e et entry args hlk (evName e)
        · rw [if_neg hg] at h
          exact ih cat r cat' h

lemma createAlertsEvents_core (evName : EventId → String) (prev : List (EventId × Nat))
    (args : List V) (event_types : List EType) :
    ∀ (evs : List EventId) (cat : Catalog V) (r : List Alert) (cat' : Catalog V),
      createAlertsEvents evName prev args event_types cat evs = .ok (r, cat') →
      Catalog.core cat' = Catalog.core cat := by
  intro evs
  induction evs with
  | nil =>
    intro cat r cat' h
    simp only [createAlertsEvents, Except.ok.injEq, Prod.mk.injEq] at h
    rw [← h.2]
  | cons e es ih =>
    intro cat r cat' h
    simp only [createAlertsEvents] at h
    cases hle : cat.lookup e with
    | none =>
      simp only [hle] at h
      exact Except.noConfusion h
    | some d =>
      simp only [hle] at h
      cases h1 : createAlertsTypes evName prev args e cat event_types with
      | error err =>
        simp only [h1] at h
        exact Except.noConfusion h
      | ok p =>
        obtain ⟨r1, cat1⟩ := p
        simp only [h1] at h
        cases h2 : createAlertsEvents evName prev args event_types cat1 es with
        | error err =>
          simp only [h2] at h
          exact Except.noConfusion h
        | ok q =>
          obtain ⟨r2, cat2⟩ := q
          simp only [h2] at h
          have hcat : cat2 = cat' := by
            simp only [Except.ok.injEq, Prod.mk.injEq] at h
            exact h.2
          calc Catalog.core cat' = Catalog.core cat2 := by rw [hcat]
            _ = Catalog.core cat1 := ih cat1 r2 cat2 h2
            _ = Catalog.core cat :=
              createAlertsTypes_core evName prev args e event_types cat r1 cat1 h1

/-- C4 amended: create_alerts leaves the catalog's immutable core unchanged -
the key structure and every construction-time field of every stored entry are
preserved - but (as the counterexample shows) it does stamp alert_type and
event_type on stored fixed-alert objects in place, so the stored entries
themselves are not left unchanged. -/
theorem create_alerts_preserves_catalog_core {V : Type} (cat : Catalog V)
    (evName : EventId → String) (s : EventsState) (ets : List EType)
    (cbArgs : Option (List V)) :
    match Events.create_alerts cat evName s ets cbArgs with
    | .ok (_, cat') => Catalog.core cat' = Catalog.core cat
    | .error _ => True := by
  cases h : Events.create_alerts cat evName s ets cbArgs with
  | error err => trivial
  | ok p =>
    obtain ⟨r, cat'⟩ := p
    exact createAlertsEvents_core evName s.events_prev (cbArgs.getD [])
      ets s.events cat r cat' h

/-- C4 counterexample: create_alerts mutates the catalog's stored entry: at
the concrete one-event catalog the stored fixed alert's alert_type is ""
before the call and "testEvent/warning" in the catalog the call leaves
behind, so the catalog is not left unchanged. -/
theorem create_alerts_mutates_catalog_cex :
    (Events.create_alerts (V := Unit) catW evNameW ⟨[7], [], [(7, 2)]⟩
        ["warning"] none).toOption.map (fun p => alertTypeAt p.2 7 "warning") ≠
      some (alertTypeAt catW 7 "warning") := by
  have hg : DT_CTRL * (((2 : Nat) : ℚ) + 1) ≥
      ((AlertEntry.fixed alertW : AlertEntry Unit).resolve []).creation_delay := by
    norm_num [alertW, Alert.mkAlert, AlertEntry.resolve, DT_CTRL]
  have hres : Events.create_alerts (V := Unit) catW evNameW ⟨[7], [], [(7, 2)]⟩
      ["warning"] none =
      .ok ([alertW.stamp (evNameW 7) "warning"],
        catW.stampAt 7 "warning" (alertW.stamp (evNameW 7) "warning")) := by
    have hded : (catW.lookup 7) = some [("warning", AlertEntry.fixed alertW)] := rfl
    have hdet : List.lookup "warning" [("warning", (AlertEntry.fixed alertW : AlertEntry Unit))] =
        some (AlertEntry.fixed alertW) := rfl
    have hp : List.lookup 7 [(7, 2)] = some (2 : Nat) := rfl
    simp only [Events.create_alerts, createAlertsEvents, createAlertsTypes, hded,
      Option.some_bind, hdet, hp, Option.getD, if_pos hg, List.append_nil, postCat]
    rfl
  rw [hres]
  decide

lemma bindLookup_core_congr {V : Type} {cat1 cat2 : Catalog V}
    (h : Catalog.core cat1 = Catalog.core cat2) (e : EventId) (et : EType) :
    ((cat1.lookup e).bind (fun d => d.lookup et)).map AlertEntry.core =
      ((cat2.lookup e).bind (fun d => d.lookup et)).map AlertEntry.core := by
  have h1 : (cat1.lookup e).map entryListCore = (cat2.lookup e).map entryListCore := by
    rw [← lookup_catalog_core, ← lookup_catalog_core, h]
  cases hc1 : cat1.lookup e with
  | none =>
    cases hc2 : cat2.lookup e with
    | none => rfl
    | some d2 => rw [hc1, hc2] at h1; exact absurd h1 (by simp)
  | some d1 =>
    cases hc2 : cat2.lookup e with
    | none => rw [hc1, hc2] at h1; exact absurd h1 (by simp)
    | some d2 =>
      rw [hc1, hc2] at h1
      have h2 : entryListCore d1 = entryListCore d2 := by simpa using h1
      simp only [Option.some_bind]
      rw [← lookup_entryListCore, ← lookup_entryListCore, h2]

lemma lookup_none_of_core_eq {V : Type} {cat1 cat2 : Catalog V}
    (h : Catalog.core cat1 = Catalog.core cat2) (e : EventId) :
    cat1.lookup e = none ↔ cat2.lookup e = none := by
  have h1 : (cat1.lookup e).map entryListCore = (cat2.lookup e).map entryListCore := by
    rw [← lookup_catalog_core, ← lookup_catalog_core, h]
  cases hc1 : cat1.lookup e with
  | none =>
    cases hc2 : cat2.lookup e with
    | none => simp
    | some d2 => rw [hc1, hc2] at h1; exact absurd h1 (by simp)
  | some d1 =>
    cases hc2 : cat2.lookup e with
    | none => rw [hc1, hc2] at h1; exact absurd h1 (by simp)
    | some d2 => simp

lemma postCat_core_congr {V : Type} {cat1 cat2 : Catalog V}
    (h : Catalog.core cat1 = Catalog.core cat2) {entry1 entry2 : AlertEntry V}
    (hcore : entry1.core = entry2.core) (st : Alert) (e : EventId) (et : EType) :
    Catalog.core (postCat cat1 e et st entry1) =
      Catalog.core (postCat cat2 e et st entry2) := by
  cases entry1 with
  | fixed a1 =>
    cases entry2 with
    | fixed a2 =>
      simp only [postCat]
      rw [core_stampAt, core_stampAt, h]
    | callback f2 => simp [AlertEntry.core] at hcore
  | callback f1 =>
    cases entry2 with
    | fixed a2 => simp [AlertEntry.core] at hcore
    | callback f2 => simpa only [postCat] using h

lemma createAlertsTypes_congr (evName : EventId → String) (prev : List (EventId × Nat))
    (args : List V) (e : EventId) :
    ∀ (ets : List EType) (cat1 cat2 : Catalog V),
      Catalog.core cat1 = Catalog.core cat2 →
      resultsAgree (createAlertsTypes evName prev args e cat1 ets)
        (createAlertsTypes evName prev args e cat2 ets) := by
  intro ets
  induction ets with
  | nil =>
    intro cat1 cat2 h
    simp only [createAlertsTypes, resultsAgree]
    exact ⟨trivial, h⟩
  | cons et rest ih =>
    intro cat1 cat2 h
    have hb := bindLookup_core_congr h e et
    cases h1 : (cat1.lookup e).bind (fun d => d.lookup et) with
    | none =>
      cases h2 : (cat2.lookup e).bind (fun d => d.lookup et) with
      | none =>
        simp only [createAlertsTypes, h1, h2]
        exact ih cat1 cat2 h
      | some entry2 => rw [h1, h2] at hb; exact absurd hb (by simp)
    | some entry1 =>
      cases h2 : (cat2.lookup e).bind (fun d => d.lookup et) with
      | none => rw [h1, h2] at hb; exact absurd hb (by simp)
      | some entry2 =>
        rw [h1, h2] at hb
        have hcore : entry1.core = entry2.core := by simpa using hb
        simp only [createAlertsTypes, h1, h2]
        cases hp : prev.lookup e with
        | none => simp [resultsAgree]
        | some n =>
          simp only []
          have hdelay : (entry1.resolve args).creation_delay =
              (entry2.resolve args).creation_delay :=
            creation_delay_congr (resolve_core_congr hcore args)
          have hstamp : (entry1.resolve args).stamp (evName e) et =
              (entry2.resolve args).stamp (evName e) et :=
            stamp_congr (resolve_core_congr hcore args) (evName e) et
          by_cases hg : DT_CTRL * ((n : ℚ) + 1) ≥ (entry1.resolve args).creation_delay
          · have hg2 : DT_CTRL * ((n : ℚ) + 1) ≥ (entry2.resolve args).creation_delay := by
              rw [← hdelay]; exact hg
            rw [if_pos hg, if_pos hg2]
            have hpost : Catalog.core
                (postCat cat1 e et ((entry1.resolve args).stamp (evName e) et) entry1) =
                Catalog.core
                (postCat cat2 e et ((entry2.resolve args).stamp (evName e) et) entry2) := by
              rw [hstamp]
              exact postCat_core_congr h hcore _ e et
            have hrec := ih _ _ hpost
            cases hr1 : createAlertsTypes evName prev args e
                (postCat cat1 e et ((entry1.resolve args).stamp (evName e) et) entry1)
                rest with
            | error err1 =>
              cases hr2 : createAlertsTypes evName prev args e
                  (postCat cat2 e et ((entry2.resolve args).stamp (evName e) et) entry2)
                  rest with
              | error err2 =>
                rw [hr1, hr2] at hrec
                simp only [resultsAgree] at hrec ⊢
                exact hrec
              | ok p2 =>
                rw [hr1, hr2] at hrec
                exact absurd hrec (by simp [resultsAgree])
            | ok p1 =>
              obtain ⟨r1, cat1p⟩ := p1
              cases hr2 : createAlertsTypes evName prev args e
                  (postCat cat2 e et ((entry2.resolve args).stamp (evName e) et) entry2)
                  rest with
              | error err2 =>
                rw [hr1, hr2] at hrec
                exact absurd hrec (by simp [resultsAgree])
              | ok p2 =>
                obtain ⟨r2, cat2p⟩ := p2
                rw [hr1, hr2] at hrec
                simp only [resultsAgree] at hrec ⊢
                exact ⟨by rw [hstamp, hrec.1], hrec.2⟩
          · have hg2 : ¬ DT_CTRL * ((n : ℚ) + 1) ≥ (entry2.resolve args).creation_delay := by
              rw [← hdelay]; exact hg
            rw [if_neg hg, if_neg hg2]
            exact ih cat1 cat2 h

lemma createAlertsEvents_congr (evName : EventId → String) (prev : List (EventId × Nat))
    (args : List V) (event_types : List EType) :
    ∀ (evs : List EventId) (cat1 cat2 : Catalog V),
      Catalog.core cat1 = Catalog.core cat2 →
      resultsAgree (createAlertsEvents evName prev args event_types cat1 evs)
        (createAlertsEvents evName prev args event_types cat2 evs) := by
  intro evs
  induction evs with
  | nil =>
    intro cat1 cat2 h
    simp only [createAlertsEvents, resultsAgree]
    exact ⟨trivial, h⟩
  | cons e es ih =>
    intro cat1 cat2 h
    cases hc1 : cat1.lookup e with
    | none =>
      cases hc2 : cat2.lookup e with
      | none => simp [createAlertsEvents, hc1, hc2, resultsAgree]
      | some d2 =>
        rw [(lookup_none_of_core_eq h e).mp hc1] at hc2
        exact Option.noConfusion hc2
    | some d1 =>
      cases hc2 : cat2.lookup e with
      | none =>
        rw [(lookup_none_of_core_eq h e).mpr hc2] at hc1
        exact Option.noConfusion hc1
      | some d2 =>
        simp only [createAlertsEvents, hc1, hc2]
        have hinner := createAlertsTypes_congr evName prev args e event_types cat1 cat2 h
        cases hi1 : createAlertsTypes evName prev args e cat1 event_types with
        | error err1 =>
          cases hi2 : createAlertsTypes evName prev args e cat2 event_types with
          | error err2 =>
            rw [hi1, hi2] at hinner
            simp only [resultsAgree] at hinner ⊢
            exact hinner
          | ok p2 =>
            rw [hi1, hi2] at hinner
            exact absurd hinner (by simp [resultsAgree])
        | ok p1 =>
          obtain ⟨r1, cat1p⟩ := p1
          cases hi2 : createAlertsTypes evName prev args e cat2 event_types with
          | error err2 =>
            rw [hi1, hi2] at hinner
            exact absurd hinner (by simp [resultsAgree])
          | ok p2 =>
            obtain ⟨r2, cat2p⟩ := p2
            rw [hi1, hi2] at hinner
            simp only [resultsAgree] at hinner
            have hrec := ih cat1p cat2p hinner.2
            simp only []
            cases he1 : createAlertsEvents evName prev args event_types cat1p es with
            | error err1 =>
              cases he2 : createAlertsEvents evName prev args event_types cat2p es with
              | error err2 =>
                rw [he1, he2] at hrec
                simp only [resultsAgree] at hrec ⊢
                exact hrec
              | ok q2 =>
                rw [he1, he2] at hrec
                exact absurd hrec (by simp [resultsAgree])
            | ok q1 =>
              obtain ⟨s1, cat1q⟩ := q1
              cases he2 : createAlertsEvents evName prev args event_types cat2p es with
              | error err2 =>
                rw [he1, he2] at hrec
                exact absurd hrec (by simp [resultsAgree])
              | ok q2 =>
                obtain ⟨s2, cat2q⟩ := q2
                rw [he1, he2] at hrec
                simp only [resultsAgree] at hrec ⊢
                exact ⟨by rw [hinner.1, hrec.1], hrec.2⟩

/-- C9: create_alerts does not mutate the Events state (it is a pure function
of active list, streaks and arguments in this embedding, matching the method
body, which never assigns to self), and its only side effect - the in-place
stamp on fixed catalog entries - re-stamps the same values on a second call:
calling create_alerts again in the same cycle with the same event_types and
callback_args, on the catalog as the first call left it, returns exactly the
same alert list. -/
theorem create_alerts_idempotent {V : Type} (cat : Catalog V) (evName : EventId → String)
    (s : EventsState) (ets : List EType) (cbArgs : Option (List V)) :
    match Events.create_alerts cat evName s ets cbArgs with
    | .ok (ret, cat') =>
        match Events.create_alerts cat' evName s ets cbArgs with
        | .ok (ret2, _) => ret2 = ret
        | .error _ => False
    | .error err => Events.create_alerts cat evName s ets cbArgs = .error err := by
  cases h1 : Events.create_alerts cat evName s ets cbArgs with
  | error err => rfl
  | ok p =>
    obtain ⟨ret, cat'⟩ := p
    simp only []
    have h1' : createAlertsEvents evName s.events_prev (cbArgs.getD []) ets cat s.events =
        .ok (ret, cat') := h1
    have hcore : Catalog.core cat' = Catalog.core cat :=
      createAlertsEvents_core evName s.events_prev (cbArgs.getD []) ets s.events
        cat ret cat' h1
    have hagree := createAlertsEvents_congr evName s.events_prev (cbArgs.getD [])
      ets s.events cat' cat hcore
    cases h2 : Events.create_alerts cat' evName s ets cbArgs with
    | error err =>
      have h2' : createAlertsEvents evName s.events_prev (cbArgs.getD []) ets cat'
          s.events = .error err := h2
      rw [h1', h2'] at hagree
      exact absurd hagree (by simp [resultsAgree])
    | ok q =>
      obtain ⟨ret2, cat2⟩ := q
      simp only []
      have h2' : createAlertsEvents evName s.events_prev (cbArgs.getD []) ets cat'
          s.events = .ok (ret2, cat2) := h2
      rw [h1', h2'] at hagree
      simp only [resultsAgree] at hagree
      exact hagree.1

lemma createAlertsEvents_unknown (evName : EventId → String) (prev : List (EventId × Nat))
    (args : List V) (ets : List EType) :
    ∀ (evs : List EventId) (cat : Catalog V) (e : EventId),
      e ∈ evs → cat.lookup e = none →
      ∃ err, createAlertsEvents evName prev args ets cat evs = .error err := by
  intro evs
  induction evs with
  | nil =>
    intro cat e he
    exact absurd he (List.not_mem_nil e)
  | cons a as ih =>
    intro cat e he hnone
    cases hla : cat.lookup a with
    | none =>
      refine ⟨.keyError a, ?_⟩
      simp only [createAlertsEvents, hla]
    | some d =>
      have hea : e ∈ as := by
        rcases List.mem_cons.mp he with h | h
        · subst h; rw [hla] at hnone; exact Option.noConfusion hnone
        · exact h
      cases hi : createAlertsTypes evName prev args a cat ets with
      | error err =>
        refine ⟨err, ?_⟩
        simp only [createAlertsEvents, hla, hi]
      | ok p =>
        obtain ⟨r1, cat1⟩ := p
        have hcore := createAlertsTypes_core evName prev args a ets cat r1 cat1 hi
        have hnone1 : cat1.lookup e = none := (lookup_none_of_core_eq hcore e).mpr hnone
        obtain ⟨err, herr⟩ := ih cat1 e hea hnone1
        refine ⟨err, ?_⟩
        simp only [createAlertsEvents, hla, hi, herr]

/-- C3 corrected/amended: a querying any() treats an active event identifier
absent from the catalog as having no categories (with no catalogued active
identifier it returns false, not an error), but create_alerts does not yield
an empty result for such an identifier: EVENTS[e] raises KeyError, so the
whole resolution call fails instead of skipping the unknown identifier. -/
theorem unknown_event_handling_amended :
    (∀ (V : Type) (cat : Catalog V) (s : EventsState) (et : EType),
        (∀ e ∈ s.events, cat.lookup e = none) → Events.any cat s et = false)
    ∧ (∀ (V : Type) (cat : Catalog V) (evName : EventId → String) (s : EventsState)
        (ets : List EType) (cbArgs : Option (List V)) (e : EventId),
        e ∈ s.events → cat.lookup e = none →
        ∃ err, Events.create_alerts cat evName s ets cbArgs = .error err) := by
  constructor
  · intro V cat s et h
    rw [Events.any]
    rw [List.any_eq_false]
    intro e he
    rw [h e he]
    simp
  · intro V cat evName s ets cbArgs e he hnone
    exact createAlertsEvents_unknown evName s.events_prev (cbArgs.getD []) ets
      s.events cat e he hnone

/-- Witness for C3's amended theorem at the concrete one-event catalog and the
unknown identifier 999. -/
theorem unknown_event_handling_amended_witness :
    Events.any (V := Unit) catW ⟨[999], [], []⟩ "warning" = false
    ∧ ∃ err, Events.create_alerts (V := Unit) catW evNameW ⟨[999], [], []⟩
        ["warning"] none = .error err :=
  ⟨unknown_event_handling_amended.1 Unit catW ⟨[999], [], []⟩ "warning"
      (by intro e he; rw [List.mem_singleton] at he; subst he; rfl),
   unknown_event_handling_amended.2 Unit catW evNameW ⟨[999], [], []⟩ ["warning"]
      none 999 (by simp) rfl⟩

end ArabicEvents
